import Mathlib

/- Shallow embedding of the quiz runner in src/main.js.

   The module-level mutable `state` object becomes `GameState`; each UI-reachable
   handler (startGame, handleChoice, the progress-bar item onclick, the restart
   button onclick, the review-screen error-tag button onclick) becomes a function
   GameState -> GameState.  DOM writes are modelled only where they carry engine
   state that the claims mention: the visibility of the start screen.  The
   practice-mode setTimeout chain (showFeedbackOverlay 500 ms, then a 200 ms
   setTimeout calling nextQuestion) is modelled as a count of pending
   auto-advance sequences; firing one sequence runs nextQuestion once, which is
   its only effect on engine state.  Neither startGame nor the restart button
   contains a clearTimeout, so no operation resets the pending count.

   JavaScript objects used as maps (state.answers) are modelled as association
   lists where assignment overwrites the value at an existing key in place and
   appends a fresh key at the end, matching JS property-update semantics. -/

namespace Quiz

/-- Mode of a session: the state.mode field of main.js holds the string
practice or test (main.js line 9). -/
inductive Mode where
  | practice
  | test
deriving DecidableEq

/-- Answer record stored in state.answers (main.js lines 8 and 218-222).
A freshly submitted record carries no errorTag field, modelled as none. -/
structure AnswerRecord where
  isCorrect : Bool
  selectedIndex : Nat
  timestamp : Nat
  errorTag : Option String
deriving DecidableEq

/-- Question record as consumed by main.js: q.id, q.prompt, q.choices,
q.correctIndex (line 216), q.answerLatex and q.point (lines 142-143). -/
structure Question where
  id : Nat
  prompt : String
  choices : List String
  correctIndex : Nat
  answerLatex : Option String
  point : Option String
deriving DecidableEq

/-- Assignment state.answers[qid] = r of main.js line 218: overwrite the value
at an existing key in place, append a fresh key at the end (JS object
property-update semantics). -/
def setAnswer : List (Nat × AnswerRecord) → Nat → AnswerRecord → List (Nat × AnswerRecord)
  | [], qid, r => [(qid, r)]
  | (k, v) :: rest, qid, r =>
      if k = qid then (qid, r) :: rest else (k, v) :: setAnswer rest qid r

/-- Read state.answers[qid] (main.js lines 123, 189, 290): the value at the key,
or none when the key is absent. -/
def lookupAnswer : List (Nat × AnswerRecord) → Nat → Option AnswerRecord
  | [], _ => none
  | (k, v) :: rest, qid => if k = qid then some v else lookupAnswer rest qid

/-- Engine state: the state object of main.js lines 5-18 (drawing-surface
fields omitted, they never touch the quiz logic), plus the start-screen
visibility (startScreen classList, toggled at lines 72, 275, 418) and the
count of practice-mode feedback timer chains that have been scheduled but
have not yet run their final nextQuestion (lines 225-234, 254-257). -/
structure GameState where
  questions : List Question
  currentQuestionIndex : Nat
  answers : List (Nat × AnswerRecord)
  mode : Mode
  startScreenHidden : Bool
  pendingFeedback : Nat
deriving DecidableEq

/-- Question currently displayed: state.questions[state.currentQuestionIndex]
(main.js lines 82, 209); none when the index is out of range. -/
def currentQuestion (s : GameState) : Option Question :=
  s.questions[s.currentQuestionIndex]?

/-- startGame of main.js lines 67-79: set the mode, reset the index and the
answer map, hide the start screen, render.  There is no length check on
state.questions, and no clearTimeout, so pendingFeedback is untouched. -/
def startGame (m : Mode) (s : GameState) : GameState :=
  { s with mode := m
         , currentQuestionIndex := 0
         , answers := []
         , startScreenHidden := true }

/-- finishGame of main.js lines 270-277: in test mode show the results screen
(pure rendering, engine state unchanged); in practice mode alert and re-show
the start screen. -/
def finishGame (s : GameState) : GameState :=
  match s.mode with
  | Mode.practice => { s with startScreenHidden := false }
  | Mode.test => s

/-- nextQuestion of main.js lines 260-268: increment the index while it is
below questions.length - 1, otherwise finish the round.  Nat subtraction
agrees with the JS comparison here: for an empty list the JS guard
0 < -1 and the Nat guard 0 < 0 are both false. -/
def nextQuestion (s : GameState) : GameState :=
  if s.currentQuestionIndex < s.questions.length - 1 then
    { s with currentQuestionIndex := s.currentQuestionIndex + 1 }
  else
    finishGame s

/-- Record written by handleChoice, main.js lines 216-222: the object literal
has no errorTag property, so any prior tag is discarded. -/
def submittedRecord (i now : Nat) (q : Question) : AnswerRecord :=
  { isCorrect := decide (i = q.correctIndex)
  , selectedIndex := i
  , timestamp := now
  , errorTag := none }

/-- handleChoice of main.js lines 206-239.  A plain click passes
isConfirmed = false and returns at line 207; a double click confirms.  The
current question is read, the answer map is overwritten, then practice mode
schedules a feedback chain (whose eventual effect is one nextQuestion) while
test mode advances immediately.  Date.now() is passed in as now.  When the
index is out of range the JS code would fault reading q.correctIndex; that
point is unreachable while a question is displayed and is modelled as a
no-op. -/
def handleChoice (i : Nat) (isConfirmed : Bool) (now : Nat) (s : GameState) : GameState :=
  if isConfirmed then
    match s.questions[s.currentQuestionIndex]? with
    | none => s
    | some q =>
      match s.mode with
      | Mode.practice =>
          { s with answers := setAnswer s.answers q.id (submittedRecord i now q)
                 , pendingFeedback := s.pendingFeedback + 1 }
      | Mode.test =>
          nextQuestion { s with answers := setAnswer s.answers q.id (submittedRecord i now q) }
  else s

/-- Completion of one scheduled practice-mode feedback chain: the overlay
timeout (main.js lines 254-257) runs its callback, which after the inner
200 ms timeout calls nextQuestion (line 233).  renderExplanation and the
feedback-area class changes touch only the DOM. -/
def firePendingFeedback (s : GameState) : GameState :=
  match s.pendingFeedback with
  | 0 => s
  | n + 1 => nextQuestion { s with pendingFeedback := n }

/-- Click on progress-bar item idx, main.js lines 163-177.  renderProgressBar
creates one item per question, so a click exists only for idx below
questions.length.  Practice mode moves freely; test mode moves only to the
immediately previous index.  The JS comparison idx === currentIndex - 1 is
over JS numbers, so it is modelled over Int: at currentIndex = 0 no item
satisfies it. -/
def clickProgressItem (idx : Nat) (s : GameState) : GameState :=
  if idx < s.questions.length then
    match s.mode with
    | Mode.practice => { s with currentQuestionIndex := idx }
    | Mode.test =>
        if (idx : Int) = (s.currentQuestionIndex : Int) - 1 then
          { s with currentQuestionIndex := idx }
        else s
  else s

/-- Click on the restart button, main.js lines 416-419: hide the results
screen, show the start screen.  Nothing else changes; in particular no timer
is cancelled and the session fields are left as they were. -/
def clickRestart (s : GameState) : GameState :=
  { s with startScreenHidden := false }

/-- Click on an error-tag button in the review list, main.js lines 313-338.
The tag buttons are rendered only when the question was not answered
correctly (line 313, isCorrect is ans && ans.isCorrect), and the click
handler mutates the record only when it exists (line 326); the mutation
toggles: equal tag clears to null, otherwise the tag is stored (lines
327-328). -/
def setErrorTag (ans : List (Nat × AnswerRecord)) (qid : Nat) (tag : String) :
    List (Nat × AnswerRecord) :=
  match lookupAnswer ans qid with
  | none => ans
  | some r =>
      if r.isCorrect then ans
      else
        setAnswer ans qid
          { r with errorTag := if r.errorTag = some tag then none else some tag }

/-- Results data of showResults, main.js lines 283-291: the score line and the
review list. -/
structure Results where
  totalCount : Nat
  correctCount : Nat
  reviewEntries : List (Question × Option AnswerRecord)
deriving DecidableEq

/-- showResults of main.js lines 279-341, data part: total is
questions.length, correctCount filters Object.values(state.answers) on
isCorrect, and the review list is built by forEach over state.questions in
question-set order, pairing each question with state.answers[q.id]. -/
def computeResults (qs : List Question) (ans : List (Nat × AnswerRecord)) : Results :=
  { totalCount := qs.length
  , correctCount := ((ans.map Prod.snd).filter (fun a => a.isCorrect)).length
  , reviewEntries := qs.map (fun q => (q, lookupAnswer ans q.id)) }

/-- Destructuring swap of main.js line 94 on an array of Nat: read both
cells, write them back exchanged. -/
def swapElems (l : List Nat) (i j : Nat) : List Nat :=
  (l.set i (l.getD j 0)).set j (l.getD i 0)

/-- Fisher-Yates loop of main.js lines 92-95, counting i down to 1; the draw
Math.floor(Math.random() * (i + 1)) is a number in [0, i], modelled as
rand i % (i + 1) for an arbitrary draw function rand. -/
def fyLoop (rand : Nat → Nat) : List Nat → Nat → List Nat
  | l, 0 => l
  | l, i + 1 => fyLoop rand (swapElems l (i + 1) (rand (i + 1) % (i + 2))) i

/-- Shuffled index array of renderQuestion, main.js lines 90-95: start from
the identity indices q.choices.map((_, i) => i) and run the swap loop from
length - 1 down to 1. -/
def shuffledIndices (n : Nat) (rand : Nat → Nat) : List Nat :=
  fyLoop rand (List.range n) (n - 1)

/-- Choice buttons rendered by renderQuestion, main.js lines 97-104: one
button per position of the shuffled index array; the element at a position
is the originalIndex that this button's onclick and ondblclick handlers
capture and pass to handleChoice. -/
def choiceButtons (q : Question) (rand : Nat → Nat) : List Nat :=
  shuffledIndices q.choices.length rand

/-- Double click on the displayed choice button at position pos: the handler
installed at main.js line 102 calls handleChoice with the captured
originalIndex and isConfirmed = true.  No button exists at an out-of-range
position, and no buttons exist when no question is displayed. -/
def confirmButtonAt (rand : Nat → Nat) (pos now : Nat) (s : GameState) : GameState :=
  match currentQuestion s with
  | none => s
  | some q =>
      match (choiceButtons q rand)[pos]? with
      | none => s
      | some originalIndex => handleChoice originalIndex true now s

/-- External events the UI can deliver to the engine: a (possibly confirmed)
choice click, a progress-bar click, a start-button click, a restart-button
click, the completion of a scheduled feedback chain, and a review-screen
error-tag click. -/
inductive Op where
  | submit (selectedIndex : Nat) (isConfirmed : Bool) (now : Nat)
  | jump (idx : Nat)
  | start (m : Mode)
  | restartClick
  | feedbackTimer
  | tagClick (qid : Nat) (tag : String)

/-- Dispatch one event to its main.js handler. -/
def step : Op → GameState → GameState
  | Op.submit i c now, s => handleChoice i c now s
  | Op.jump idx, s => clickProgressItem idx s
  | Op.start m, s => startGame m s
  | Op.restartClick, s => clickRestart s
  | Op.feedbackTimer, s => firePendingFeedback s
  | Op.tagClick qid tag, s => { s with answers := setErrorTag s.answers qid tag }

/-- Run a sequence of events. -/
def run (ops : List Op) (s : GameState) : GameState :=
  ops.foldl (fun t op => step op t) s

/-- Initial module state of main.js lines 5-18 after loadQuestions has filled
state.questions: index 0, empty answer map, practice mode default, start
screen visible, no timer pending. -/
def initState (qs : List Question) : GameState :=
  { questions := qs
  , currentQuestionIndex := 0
  , answers := []
  , mode := Mode.practice
  , startScreenHidden := false
  , pendingFeedback := 0 }

/-- Fixture question: two choices, first is correct. -/
def qA : Question :=
  { id := 0, prompt := "pA", choices := ["a1", "a2"], correctIndex := 0
  , answerLatex := none, point := none }

/-- Fixture question: two choices, second is correct. -/
def qB : Question :=
  { id := 1, prompt := "pB", choices := ["b1", "b2"], correctIndex := 1
  , answerLatex := none, point := none }

/-- Fixture question: three choices, first is correct. -/
def qC : Question :=
  { id := 2, prompt := "pC", choices := ["c1", "c2", "c3"], correctIndex := 0
  , answerLatex := none, point := none }

/-- Fixture question: three choices, second is correct. -/
def qD : Question :=
  { id := 3, prompt := "pD", choices := ["d1", "d2", "d3"], correctIndex := 1
  , answerLatex := none, point := none }

/-- Fixture question for the shuffle claims: three choices, second correct. -/
def qW : Question :=
  { id := 9, prompt := "pW", choices := ["x", "y", "z"], correctIndex := 1
  , answerLatex := none, point := none }

/-- Fixture session on the single question qW, freshly started in practice
mode. -/
def sW : GameState :=
  startGame Mode.practice (initState [qW])

/-- Fixture test-mode session on four questions, currently at index 2. -/
def sT : GameState :=
  { questions := [qA, qB, qC, qD]
  , currentQuestionIndex := 2
  , answers := []
  , mode := Mode.test
  , startScreenHidden := true
  , pendingFeedback := 0 }

/-- Fixture answer map for the error-tag claims: question 3 was answered
incorrectly and already carries the first tag string of main.js line 318. -/
def ansC6 : List (Nat × AnswerRecord) :=
  [(3, { isCorrect := false, selectedIndex := 1, timestamp := 42, errorTag := some "立式ミス" })]

/-- Fixture incorrect record with no tag yet. -/
def recW : AnswerRecord :=
  { isCorrect := false, selectedIndex := 0, timestamp := 5, errorTag := none }

/-- Fixture answer map holding recW at question 7. -/
def ansW : List (Nat × AnswerRecord) :=
  [(7, recW)]

/-- Fixture trace for the double-submission claim: a fresh practice session on
three questions. -/
def s7a : GameState := startGame Mode.practice (initState [qA, qB, qC])

/-- Fixture trace: first confirmed choice on question index 0 (a wrong one). -/
def s7b : GameState := handleChoice 1 true 10 s7a

/-- Fixture trace: a second confirmed choice on the same question while the
first feedback chain is still pending. -/
def s7c : GameState := handleChoice 0 true 20 s7b

/-- Fixture trace: both scheduled feedback chains run to completion. -/
def s7d : GameState := firePendingFeedback (firePendingFeedback s7c)

/-- Fixture trace for the stale-timer claim: a fresh practice session on a
single question. -/
def s9a : GameState := startGame Mode.practice (initState [qA])

/-- Fixture trace: first confirmed choice on the only question. -/
def s9b : GameState := handleChoice 0 true 5 s9a

/-- Fixture trace: second confirmed choice while the first chain is pending. -/
def s9c : GameState := handleChoice 1 true 6 s9b

/-- Fixture trace: the first chain fires, finishing the practice round and
re-showing the start screen; one chain is still pending. -/
def s9d : GameState := firePendingFeedback s9c

/-- Fixture trace: a new practice session is started from the start screen. -/
def s9e : GameState := startGame Mode.practice s9d

/-- Fixture trace: the stale chain of the previous session fires into the new
session. -/
def s9f : GameState := firePendingFeedback s9e

/-! Lemmas about the answer map. -/

theorem lookupAnswer_setAnswer_self (ans : List (Nat × AnswerRecord)) (qid : Nat)
    (r : AnswerRecord) :
    lookupAnswer (setAnswer ans qid r) qid = some r := by
  induction ans with
  | nil => simp [setAnswer, lookupAnswer]
  | cons p rest ih =>
      obtain ⟨k, v⟩ := p
      by_cases h : k = qid
      · simp [setAnswer, lookupAnswer, h]
      · simp [setAnswer, lookupAnswer, h, ih]

theorem lookupAnswer_setAnswer_ne (ans : List (Nat × AnswerRecord)) (qid k : Nat)
    (r : AnswerRecord) (h : k ≠ qid) :
    lookupAnswer (setAnswer ans qid r) k = lookupAnswer ans k := by
  induction ans with
  | nil => simp [setAnswer, lookupAnswer, Ne.symm h]
  | cons p rest ih =>
      obtain ⟨k0, v⟩ := p
      by_cases h0 : k0 = qid
      · subst h0
        simp [setAnswer, lookupAnswer, Ne.symm h]
      · by_cases h1 : k0 = k <;> simp [setAnswer, lookupAnswer, h0, h1, h, Ne.symm h, ih]

theorem mem_keys_setAnswer (ans : List (Nat × AnswerRecord)) (qid x : Nat)
    (r : AnswerRecord) :
    x ∈ (setAnswer ans qid r).map Prod.fst ↔ x ∈ ans.map Prod.fst ∨ x = qid := by
  induction ans with
  | nil => simp [setAnswer]
  | cons p rest ih =>
      obtain ⟨k, v⟩ := p
      by_cases h : k = qid
      · subst h
        simp [setAnswer]
        tauto
      · simp [setAnswer, h, ih]
        tauto

theorem nodup_keys_setAnswer (ans : List (Nat × AnswerRecord)) (qid : Nat)
    (r : AnswerRecord) (h : (ans.map Prod.fst).Nodup) :
    ((setAnswer ans qid r).map Prod.fst).Nodup := by
  induction ans with
  | nil => simp [setAnswer]
  | cons p rest ih =>
      obtain ⟨k, v⟩ := p
      simp only [List.map_cons, List.nodup_cons] at h
      by_cases hk : k = qid
      · subst hk
        have hrw : setAnswer ((k, v) :: rest) k r = (k, r) :: rest := by
          simp [setAnswer]
        rw [hrw]
        simp only [List.map_cons, List.nodup_cons]
        exact h
      · have hrw : setAnswer ((k, v) :: rest) qid r = (k, v) :: setAnswer rest qid r := by
          simp [setAnswer, hk]
        rw [hrw]
        simp only [List.map_cons, List.nodup_cons]
        refine ⟨?_, ih h.2⟩
        intro hmem
        rcases (mem_keys_setAnswer rest qid k r).mp hmem with h1 | h1
        · exact h.1 h1
        · exact hk h1

theorem countP_isCorrect_setAnswer (ans : List (Nat × AnswerRecord)) (qid : Nat)
    (r r2 : AnswerRecord) (hl : lookupAnswer ans qid = some r)
    (hc : r2.isCorrect = r.isCorrect) :
    List.countP (fun pr => pr.2.isCorrect) (setAnswer ans qid r2)
      = List.countP (fun pr => pr.2.isCorrect) ans := by
  induction ans with
  | nil => simp [lookupAnswer] at hl
  | cons p rest ih =>
      obtain ⟨k, v⟩ := p
      by_cases hk : k = qid
      · subst hk
        have hv : v = r := by simpa [lookupAnswer] using hl
        subst hv
        have hrw : setAnswer ((k, v) :: rest) k r2 = (k, r2) :: rest := by
          simp [setAnswer]
        rw [hrw]
        simp [List.countP_cons, hc]
      · have hl2 : lookupAnswer rest qid = some r := by simpa [lookupAnswer, hk] using hl
        have hrw : setAnswer ((k, v) :: rest) qid r2 = (k, v) :: setAnswer rest qid r2 := by
          simp [setAnswer, hk]
        rw [hrw]
        simp [List.countP_cons, ih hl2]

/-! Preservation lemmas: which fields each handler leaves unchanged. -/

theorem questions_finishGame (s : GameState) : (finishGame s).questions = s.questions := by
  cases h : s.mode <;> simp [finishGame, h]

theorem answers_finishGame (s : GameState) : (finishGame s).answers = s.answers := by
  cases h : s.mode <;> simp [finishGame, h]

theorem index_finishGame (s : GameState) :
    (finishGame s).currentQuestionIndex = s.currentQuestionIndex := by
  cases h : s.mode <;> simp [finishGame, h]

theorem questions_nextQuestion (s : GameState) : (nextQuestion s).questions = s.questions := by
  unfold nextQuestion
  split
  · rfl
  · exact questions_finishGame s

theorem answers_nextQuestion (s : GameState) : (nextQuestion s).answers = s.answers := by
  unfold nextQuestion
  split
  · rfl
  · exact answers_finishGame s

theorem index_nextQuestion_lt (s : GameState)
    (h : s.currentQuestionIndex < s.questions.length) :
    (nextQuestion s).currentQuestionIndex < s.questions.length := by
  unfold nextQuestion
  split
  · rename_i hlt
    simp only
    omega
  · rw [index_finishGame]
    exact h

theorem questions_handleChoice (i : Nat) (c : Bool) (now : Nat) (s : GameState) :
    (handleChoice i c now s).questions = s.questions := by
  unfold handleChoice
  split
  · split
    · rfl
    · split
      · rfl
      · rw [questions_nextQuestion]
  · rfl

theorem index_handleChoice_lt (i : Nat) (c : Bool) (now : Nat) (s : GameState)
    (h : s.currentQuestionIndex < s.questions.length) :
    (handleChoice i c now s).currentQuestionIndex < s.questions.length := by
  unfold handleChoice
  split
  · split
    · exact h
    · split
      · exact h
      · exact index_nextQuestion_lt _ h
  · exact h

theorem nodup_keys_handleChoice (i : Nat) (c : Bool) (now : Nat) (s : GameState)
    (h : (s.answers.map Prod.fst).Nodup) :
    ((handleChoice i c now s).answers.map Prod.fst).Nodup := by
  unfold handleChoice
  split
  · split
    · exact h
    · split
      · exact nodup_keys_setAnswer _ _ _ h
      · rw [answers_nextQuestion]
        exact nodup_keys_setAnswer _ _ _ h
  · exact h

theorem questions_firePendingFeedback (s : GameState) :
    (firePendingFeedback s).questions = s.questions := by
  unfold firePendingFeedback
  split
  · rfl
  · rw [questions_nextQuestion]

theorem answers_firePendingFeedback (s : GameState) :
    (firePendingFeedback s).answers = s.answers := by
  unfold firePendingFeedback
  split
  · rfl
  · rw [answers_nextQuestion]

theorem index_firePendingFeedback_lt (s : GameState)
    (h : s.currentQuestionIndex < s.questions.length) :
    (firePendingFeedback s).currentQuestionIndex < s.questions.length := by
  unfold firePendingFeedback
  split
  · exact h
  · exact index_nextQuestion_lt _ h

theorem questions_clickProgressItem (idx : Nat) (s : GameState) :
    (clickProgressItem idx s).questions = s.questions := by
  unfold clickProgressItem
  split
  · split
    · rfl
    · split <;> rfl
  · rfl

theorem answers_clickProgressItem (idx : Nat) (s : GameState) :
    (clickProgressItem idx s).answers = s.answers := by
  unfold clickProgressItem
  split
  · split
    · rfl
    · split <;> rfl
  · rfl

theorem mode_clickProgressItem (idx : Nat) (s : GameState) :
    (clickProgressItem idx s).mode = s.mode := by
  unfold clickProgressItem
  split
  · split
    · rfl
    · split <;> rfl
  · rfl

theorem index_clickProgressItem_lt (idx : Nat) (s : GameState)
    (h : s.currentQuestionIndex < s.questions.length) :
    (clickProgressItem idx s).currentQuestionIndex < s.questions.length := by
  unfold clickProgressItem
  split
  · rename_i hlt
    split
    · exact hlt
    · split
      · exact hlt
      · exact h
  · exact h

theorem nodup_keys_setErrorTag (ans : List (Nat × AnswerRecord)) (qid : Nat) (tag : String)
    (h : (ans.map Prod.fst).Nodup) :
    ((setErrorTag ans qid tag).map Prod.fst).Nodup := by
  unfold setErrorTag
  split
  · exact h
  · split
    · exact h
    · exact nodup_keys_setAnswer _ _ _ h

/-! Lemmas about whole event sequences. -/

theorem questions_step (op : Op) (s : GameState) : (step op s).questions = s.questions := by
  cases op with
  | submit i c now => exact questions_handleChoice i c now s
  | jump idx => exact questions_clickProgressItem idx s
  | start m => rfl
  | restartClick => rfl
  | feedbackTimer => exact questions_firePendingFeedback s
  | tagClick qid tag => rfl

theorem index_step_lt (op : Op) (s : GameState) (h0 : 0 < s.questions.length)
    (h : s.currentQuestionIndex < s.questions.length) :
    (step op s).currentQuestionIndex < s.questions.length := by
  cases op with
  | submit i c now => exact index_handleChoice_lt i c now s h
  | jump idx => exact index_clickProgressItem_lt idx s h
  | start m => exact h0
  | restartClick => exact h
  | feedbackTimer => exact index_firePendingFeedback_lt s h
  | tagClick qid tag => exact h

theorem nodup_keys_step (op : Op) (s : GameState)
    (h : (s.answers.map Prod.fst).Nodup) :
    ((step op s).answers.map Prod.fst).Nodup := by
  cases op with
  | submit i c now => exact nodup_keys_handleChoice i c now s h
  | jump idx =>
      rw [show (step (Op.jump idx) s).answers = s.answers from answers_clickProgressItem idx s]
      exact h
  | start m => simp [step, startGame]
  | restartClick => exact h
  | feedbackTimer =>
      rw [show (step Op.feedbackTimer s).answers = s.answers from answers_firePendingFeedback s]
      exact h
  | tagClick qid tag => exact nodup_keys_setErrorTag s.answers qid tag h

theorem run_cons (op : Op) (ops : List Op) (s : GameState) :
    run (op :: ops) s = run ops (step op s) := rfl

theorem questions_run (ops : List Op) (s : GameState) : (run ops s).questions = s.questions := by
  induction ops generalizing s with
  | nil => rfl
  | cons op rest ih => rw [run_cons, ih, questions_step]

theorem run_index_lt (ops : List Op) (s : GameState) (h0 : 0 < s.questions.length)
    (h : s.currentQuestionIndex < s.questions.length) :
    (run ops s).currentQuestionIndex < (run ops s).questions.length := by
  induction ops generalizing s with
  | nil => exact h
  | cons op rest ih =>
      rw [run_cons]
      have hq := questions_step op s
      apply ih (step op s)
      · rw [hq]
        exact h0
      · rw [hq]
        exact index_step_lt op s h0 h

theorem nodup_keys_run (ops : List Op) (s : GameState)
    (h : (s.answers.map Prod.fst).Nodup) :
    ((run ops s).answers.map Prod.fst).Nodup := by
  induction ops generalizing s with
  | nil => exact h
  | cons op rest ih => exact ih (step op s) (nodup_keys_step op s h)

/-! Lemmas about a confirmed submission. -/

theorem lookup_handleChoice_self (s : GameState) (q : Question) (i now : Nat)
    (hq : currentQuestion s = some q) :
    lookupAnswer (handleChoice i true now s).answers q.id = some (submittedRecord i now q) := by
  have hq2 : s.questions[s.currentQuestionIndex]? = some q := hq
  cases hm : s.mode with
  | practice =>
      simp only [handleChoice, hq2, hm, if_true]
      exact lookupAnswer_setAnswer_self s.answers q.id (submittedRecord i now q)
  | test =>
      simp only [handleChoice, hq2, hm, if_true]
      rw [answers_nextQuestion]
      exact lookupAnswer_setAnswer_self s.answers q.id (submittedRecord i now q)

theorem lookup_handleChoice_ne (s : GameState) (q : Question) (i now k : Nat)
    (hq : currentQuestion s = some q) (hk : k ≠ q.id) :
    lookupAnswer (handleChoice i true now s).answers k = lookupAnswer s.answers k := by
  have hq2 : s.questions[s.currentQuestionIndex]? = some q := hq
  cases hm : s.mode with
  | practice =>
      simp only [handleChoice, hq2, hm, if_true]
      exact lookupAnswer_setAnswer_ne s.answers q.id k (submittedRecord i now q) hk
  | test =>
      simp only [handleChoice, hq2, hm, if_true]
      rw [answers_nextQuestion]
      exact lookupAnswer_setAnswer_ne s.answers q.id k (submittedRecord i now q) hk

/-- Claim C1: for every in-progress session (a question is displayed) and
every submitted choice index, submitAnswer records isCorrect = true exactly
when the submitted index equals the current question's correct index; any
other index yields isCorrect = false.  The record is the one handleChoice
stores for the current question's id. -/
theorem claim_C1 (s : GameState) (q : Question) (i now : Nat)
    (hq : currentQuestion s = some q) :
    ∃ r : AnswerRecord,
      lookupAnswer (handleChoice i true now s).answers q.id = some r
      ∧ r.selectedIndex = i
      ∧ (r.isCorrect = true ↔ i = q.correctIndex) := by
  refine ⟨submittedRecord i now q, lookup_handleChoice_self s q i now hq, rfl, ?_⟩
  simp [submittedRecord]

/-- Witness for claim C1 at a concrete in-progress session. -/
theorem claim_C1_witness :
    ∃ r : AnswerRecord,
      lookupAnswer (handleChoice 1 true 7 sW).answers qW.id = some r
      ∧ r.selectedIndex = 1
      ∧ (r.isCorrect = true ↔ 1 = qW.correctIndex) :=
  claim_C1 sW qW 1 7 (by decide)

/-- Claim C2: for every session started on a non-empty question set and every
sequence of UI events (submissions, jumps, restarts, new session starts,
timer completions, tag clicks), currentIndex stays a valid index into the
question set. -/
theorem claim_C2 (s : GameState) (m : Mode) (ops : List Op)
    (h : 0 < s.questions.length) :
    (run ops (startGame m s)).currentQuestionIndex
      < (run ops (startGame m s)).questions.length := by
  apply run_index_lt
  · exact h
  · exact h

/-- Witness for claim C2 on a concrete one-question session and event list. -/
theorem claim_C2_witness :
    0 < (initState [qA]).questions.length
    ∧ (run [Op.submit 0 true 1, Op.jump 0, Op.feedbackTimer]
          (startGame Mode.practice (initState [qA]))).currentQuestionIndex
        < (run [Op.submit 0 true 1, Op.jump 0, Op.feedbackTimer]
            (startGame Mode.practice (initState [qA]))).questions.length :=
  ⟨by decide,
   claim_C2 (initState [qA]) Mode.practice
     [Op.submit 0 true 1, Op.jump 0, Op.feedbackTimer] (by decide)⟩

/-- Claim C3: the answers map holds at most one record per question id at any
time during a session; a confirmed resubmission overwrites the record for
the current question with the new selection, correctness and timestamp, its
errorTag field reset to none, and leaves every other question's record
untouched. -/
theorem claim_C3 (s : GameState) (q : Question) (i now : Nat)
    (hq : currentQuestion s = some q) :
    lookupAnswer (handleChoice i true now s).answers q.id
      = some { isCorrect := decide (i = q.correctIndex), selectedIndex := i
             , timestamp := now, errorTag := none }
    ∧ (∀ k, k ≠ q.id →
        lookupAnswer (handleChoice i true now s).answers k = lookupAnswer s.answers k)
    ∧ (∀ m ops k, ((run ops (startGame m s)).answers.map Prod.fst).count k ≤ 1) := by
  refine ⟨lookup_handleChoice_self s q i now hq, ?_, ?_⟩
  · intro k hk
    exact lookup_handleChoice_ne s q i now k hq hk
  · intro m ops k
    have h0 : (((startGame m s).answers).map Prod.fst).Nodup := by
      simp [startGame]
    exact List.nodup_iff_count_le_one.mp (nodup_keys_run ops _ h0) k

/-- Witness for claim C3: resubmission on the concrete session sW. -/
theorem claim_C3_witness :
    lookupAnswer (handleChoice 0 true 3 sW).answers qW.id
      = some { isCorrect := decide ((0 : Nat) = qW.correctIndex), selectedIndex := 0
             , timestamp := 3, errorTag := none }
    ∧ lookupAnswer (handleChoice 0 true 3 sW).answers 5 = lookupAnswer sW.answers 5
    ∧ ((run [Op.submit 0 true 3] (startGame Mode.practice sW)).answers.map Prod.fst).count 9
        ≤ 1 := by
  have h := claim_C3 sW qW 0 3 (by decide)
  exact ⟨h.1, h.2.1 5 (by decide), h.2.2 Mode.practice [Op.submit 0 true 3] 9⟩

/-- Claim C4: a progress-bar jump never mutates the answers map; in practice
mode it moves to any target index that has a progress item; in test mode the
index is set to the target exactly when the target is the immediately
previous index, and every denied jump leaves the state unchanged. -/
theorem claim_C4 (s : GameState) (idx : Nat)
    (h : s.currentQuestionIndex < s.questions.length) :
    (clickProgressItem idx s).answers = s.answers
    ∧ (s.mode = Mode.practice → idx < s.questions.length →
        clickProgressItem idx s = { s with currentQuestionIndex := idx })
    ∧ (s.mode = Mode.test →
        (((idx : Int) = (s.currentQuestionIndex : Int) - 1 →
            clickProgressItem idx s = { s with currentQuestionIndex := idx })
         ∧ ((idx : Int) ≠ (s.currentQuestionIndex : Int) - 1 →
            clickProgressItem idx s = s))) := by
  refine ⟨answers_clickProgressItem idx s, ?_, ?_⟩
  · intro hm hlt
    simp [clickProgressItem, hlt, hm]
  · intro hm
    constructor
    · intro heq
      have hlt : idx < s.questions.length := by omega
      simp [clickProgressItem, hlt, hm, heq]
    · intro hne
      by_cases hlt : idx < s.questions.length <;>
        simp [clickProgressItem, hlt, hm, hne]

/-- Witness for claim C4 on the concrete test-mode session sT at index 2:
jumping to index 1 is the permitted one-step-back move. -/
theorem claim_C4_witness :
    (clickProgressItem 1 sT).answers = sT.answers
    ∧ (sT.mode = Mode.practice → 1 < sT.questions.length →
        clickProgressItem 1 sT = { sT with currentQuestionIndex := 1 })
    ∧ (sT.mode = Mode.test →
        ((((1 : Nat) : Int) = (sT.currentQuestionIndex : Int) - 1 →
            clickProgressItem 1 sT = { sT with currentQuestionIndex := 1 })
         ∧ (((1 : Nat) : Int) ≠ (sT.currentQuestionIndex : Int) - 1 →
            clickProgressItem 1 sT = sT))) :=
  claim_C4 sT 1 (by decide)

/-- Claim C5: computeResults reports the question-set size as totalCount (so
unanswered questions count in the denominator), counts exactly the recorded
answers whose isCorrect is true (so unanswered questions never enter
correctCount, which does not depend on the question list at all), and builds
the review entries in question-set order, one per question, each question
paired with its record or its absence. -/
theorem claim_C5 (qs : List Question) (ans : List (Nat × AnswerRecord)) :
    (computeResults qs ans).totalCount = qs.length
    ∧ (computeResults qs ans).correctCount
        = List.countP (fun pr => pr.2.isCorrect) ans
    ∧ (computeResults qs ans).reviewEntries.map Prod.fst = qs
    ∧ (computeResults qs ans).reviewEntries
        = qs.map (fun q => (q, lookupAnswer ans q.id))
    ∧ (∀ qs2, (computeResults qs2 ans).correctCount = (computeResults qs ans).correctCount) := by
  refine ⟨rfl, ?_, ?_, rfl, fun qs2 => rfl⟩
  · simp only [computeResults, ← List.countP_eq_length_filter, List.countP_map]
    rfl
  · simp only [computeResults, List.map_map]
    exact List.map_id qs

/-- Claim C6 counterexample: double-toggle does not always return the stored
tag to its prior value.  A record tagged with the first tag string, toggled
twice with the second tag string, ends with no tag at all instead of the
original one: the first click replaces the old tag, the second click clears
it. -/
theorem claim_C6_counterexample :
    lookupAnswer (setErrorTag (setErrorTag ansC6 3 "計算ミス") 3 "計算ミス") 3
      ≠ lookupAnswer ansC6 3 := by
  decide

/-- Claim C6 as amended: setErrorTag toggles (an equal stored tag is cleared
to none, otherwise the tag is stored), is a no-op when the question has no
record or was answered correctly, never changes correctCount, and applying
the same tag twice restores the record when the prior tag was none or equal
to the applied tag (a differing prior tag is replaced, then cleared). -/
theorem claim_C6_amended (ans : List (Nat × AnswerRecord)) (qs : List Question)
    (qid : Nat) (tag : String) :
    (∀ r, lookupAnswer ans qid = some r → r.isCorrect = false →
        lookupAnswer (setErrorTag ans qid tag) qid
          = some { r with errorTag := if r.errorTag = some tag then none else some tag }
        ∧ ∀ k, k ≠ qid → lookupAnswer (setErrorTag ans qid tag) k = lookupAnswer ans k)
    ∧ (∀ r, lookupAnswer ans qid = some r → r.isCorrect = true →
        setErrorTag ans qid tag = ans)
    ∧ (lookupAnswer ans qid = none → setErrorTag ans qid tag = ans)
    ∧ (computeResults qs (setErrorTag ans qid tag)).correctCount
        = (computeResults qs ans).correctCount
    ∧ (∀ r, lookupAnswer ans qid = some r → r.isCorrect = false →
        (r.errorTag = none ∨ r.errorTag = some tag) →
        lookupAnswer (setErrorTag (setErrorTag ans qid tag) qid tag) qid = some r) := by
  have hover : ∀ r, lookupAnswer ans qid = some r → r.isCorrect = false →
      setErrorTag ans qid tag
        = setAnswer ans qid
            { r with errorTag := if r.errorTag = some tag then none else some tag } := by
    intro r hr hc
    unfold setErrorTag
    rw [hr]
    simp [hc]
  refine ⟨?_, ?_, ?_, ?_, ?_⟩
  · intro r hr hc
    rw [hover r hr hc]
    exact ⟨lookupAnswer_setAnswer_self ans qid _,
           fun k hk => lookupAnswer_setAnswer_ne ans qid k _ hk⟩
  · intro r hr hc
    unfold setErrorTag
    rw [hr]
    simp [hc]
  · intro hr
    unfold setErrorTag
    rw [hr]
  · cases hl : lookupAnswer ans qid with
    | none =>
        unfold setErrorTag
        rw [hl]
    | some r =>
        by_cases hc : r.isCorrect
        · unfold setErrorTag
          rw [hl]
          simp [hc]
        · rw [hover r hl (by simpa using hc)]
          have h2 := countP_isCorrect_setAnswer ans qid r
            { r with errorTag := if r.errorTag = some tag then none else some tag } hl rfl
          simp only [computeResults]
          simp only [← List.countP_eq_length_filter, List.countP_map]
          exact h2
  · intro r hr hc htag
    obtain ⟨ic, sel, ts, et⟩ := r
    simp only at hc
    subst hc
    rw [hover _ hr rfl]
    rcases htag with h0 | h0 <;> simp only at h0 <;> subst h0 <;>
      simp [setErrorTag, lookupAnswer_setAnswer_self]

/-- Witness for the amended claim C6: on the concrete map ansW (incorrect,
untagged record at question 7) a double toggle restores the record. -/
theorem claim_C6_amended_witness :
    lookupAnswer (setErrorTag (setErrorTag ansW 7 "計算ミス") 7 "計算ミス") 7 = some recW :=
  (claim_C6_amended ansW [] 7 "計算ミス").2.2.2.2 recW (by decide) (by decide)
    (Or.inl (by decide))

/-- Claim C7 evaluated at its failing input: in a practice session on three
questions, a confirmed submission on question 0 leaves one feedback chain
pending; a second confirmed submission on the same question before the
chain fires is not rejected — it overwrites the answer record and schedules
a second chain, and when both chains fire the index advances twice, from 0
straight past question 1 to question 2. -/
theorem claim_C7_eval :
    s7b.pendingFeedback = 1
    ∧ s7b.currentQuestionIndex = 0
    ∧ s7c.pendingFeedback = 2
    ∧ lookupAnswer s7c.answers qA.id
        = some { isCorrect := true, selectedIndex := 0, timestamp := 20, errorTag := none }
    ∧ s7d.currentQuestionIndex = 2 := by
  decide

/-- Claim C8 counterexample: startGame on an empty question set is not
rejected — it still resets the session fields and hides the start screen,
entering the quiz screen with no question to display. -/
theorem claim_C8_counterexample :
    (startGame Mode.practice (initState [])).startScreenHidden = true
    ∧ currentQuestion (startGame Mode.practice (initState [])) = none
    ∧ startGame Mode.practice (initState []) ≠ initState [] := by
  decide

/-- Claim C8 as amended: startGame performs no validation of the question-set
length; on a zero-length set it still resets the session state and hides the
start screen, and renderQuestion then displays nothing (its early return on
a missing question), so the empty set surfaces as a blank in-progress screen
rather than as a rejected session start. -/
theorem claim_C8_amended (s : GameState) (m : Mode) (h : s.questions = []) :
    startGame m s
      = { s with mode := m, currentQuestionIndex := 0, answers := []
               , startScreenHidden := true }
    ∧ currentQuestion (startGame m s) = none := by
  constructor
  · rfl
  · simp [currentQuestion, startGame, h]

/-- Witness for the amended claim C8 on the concrete empty-set state. -/
theorem claim_C8_amended_witness :
    startGame Mode.test (initState [])
      = { (initState []) with
          mode := Mode.test, currentQuestionIndex := 0, answers := [],
          startScreenHidden := true }
    ∧ currentQuestion (startGame Mode.test (initState [])) = none :=
  claim_C8_amended (initState []) Mode.test (by decide)

/-- Claim C9 evaluated at its failing input: on a one-question practice set,
a double submission leaves two feedback chains pending; the first chain
finishes the round and re-shows the start screen with one chain still
pending; starting a new session does not discard it (the state still holds
one pending chain), and when the stale chain fires it runs nextQuestion
against the new session, immediately finishing it and throwing the user
back to the start screen. -/
theorem claim_C9_eval :
    s9d.startScreenHidden = false
    ∧ s9d.pendingFeedback = 1
    ∧ s9e.pendingFeedback = 1
    ∧ s9e.startScreenHidden = true
    ∧ s9e.currentQuestionIndex = 0
    ∧ s9f.startScreenHidden = false := by
  decide

/-! Lemmas for the shuffle: element counts are preserved by the in-place swap
and hence by the whole Fisher-Yates loop. -/

theorem count_set_add (l : List Nat) (i b c : Nat) (hi : i < l.length) :
    (l.set i b).count c + (if l.getD i 0 = c then 1 else 0)
      = l.count c + (if b = c then 1 else 0) := by
  induction l generalizing i with
  | nil => simp at hi
  | cons x xs ih =>
      cases i with
      | zero =>
          simp only [List.set_cons_zero, List.getD_cons_zero, List.count_cons, beq_iff_eq]
          omega
      | succ n =>
          have hn : n < xs.length := by simpa using hi
          have h := ih n hn
          simp only [List.set_cons_succ, List.getD_cons_succ, List.count_cons, beq_iff_eq]
          omega

theorem length_swapElems (l : List Nat) (i j : Nat) :
    (swapElems l i j).length = l.length := by
  simp [swapElems]

theorem getD_set_getD (l : List Nat) (i j : Nat) (hi : i < l.length) (hj : j < l.length) :
    (l.set i (l.getD j 0)).getD j 0 = l.getD j 0 := by
  simp only [List.getD_eq_getElem?_getD, List.getElem?_set]
  by_cases h : i = j
  · subst h
    simp [hi]
  · simp [h]

theorem count_swapElems (l : List Nat) (i j c : Nat) (hi : i < l.length) (hj : j < l.length) :
    (swapElems l i j).count c = l.count c := by
  have h1 := count_set_add l i (l.getD j 0) c hi
  have hj2 : j < (l.set i (l.getD j 0)).length := by
    rw [List.length_set]
    exact hj
  have h2 := count_set_add (l.set i (l.getD j 0)) j (l.getD i 0) c hj2
  rw [getD_set_getD l i j hi hj] at h2
  unfold swapElems
  omega

theorem count_fyLoop (rand : Nat → Nat) (l : List Nat) (i c : Nat) (hi : i < l.length) :
    (fyLoop rand l i).count c = l.count c := by
  induction i generalizing l with
  | zero => rfl
  | succ n ih =>
      have hj : rand (n + 1) % (n + 2) < l.length := by
        have hm : rand (n + 1) % (n + 2) < n + 2 := Nat.mod_lt _ (by omega)
        omega
      have hlen := length_swapElems l (n + 1) (rand (n + 1) % (n + 2))
      have hstep : fyLoop rand l (n + 1)
          = fyLoop rand (swapElems l (n + 1) (rand (n + 1) % (n + 2))) n := rfl
      rw [hstep, ih _ (by omega), count_swapElems l _ _ c hi hj]

theorem shuffledIndices_perm (n : Nat) (rand : Nat → Nat) :
    (shuffledIndices n rand).Perm (List.range n) := by
  cases n with
  | zero => exact List.Perm.refl _
  | succ m =>
      apply List.perm_iff_count.mpr
      intro c
      have hm : m < (List.range (m + 1)).length := by simp
      have h := count_fyLoop rand (List.range (m + 1)) m c hm
      simpa [shuffledIndices] using h

/-- Claim C10: each display renders the choices in a shuffled order that is a
permutation of the original choice indices (every logical choice appears
exactly once), every choice button submits its original unshuffled index,
and for any two display permutations confirming the same logical choice
produces identical engine states — in particular the same recorded
selectedIndex and the same isCorrect, judged against the question's original
correctIndex.  The shuffle randomness never reaches the recorded answer or
the score. -/
theorem claim_C10 (s : GameState) (q : Question) (r1 r2 : Nat → Nat)
    (p1 p2 c now : Nat) (hq : currentQuestion s = some q)
    (h1 : (choiceButtons q r1)[p1]? = some c)
    (h2 : (choiceButtons q r2)[p2]? = some c) :
    (choiceButtons q r1).Perm (List.range q.choices.length)
    ∧ confirmButtonAt r1 p1 now s = confirmButtonAt r2 p2 now s
    ∧ lookupAnswer (confirmButtonAt r1 p1 now s).answers q.id
        = some (submittedRecord c now q) := by
  have e1 : confirmButtonAt r1 p1 now s = handleChoice c true now s := by
    unfold confirmButtonAt
    rw [hq]
    show (match (choiceButtons q r1)[p1]? with
      | none => s
      | some originalIndex => handleChoice originalIndex true now s) = handleChoice c true now s
    rw [h1]
  have e2 : confirmButtonAt r2 p2 now s = handleChoice c true now s := by
    unfold confirmButtonAt
    rw [hq]
    show (match (choiceButtons q r2)[p2]? with
      | none => s
      | some originalIndex => handleChoice originalIndex true now s) = handleChoice c true now s
    rw [h2]
  refine ⟨shuffledIndices_perm q.choices.length r1, e1.trans e2.symm, ?_⟩
  rw [e1]
  exact lookup_handleChoice_self s q c now hq

/-- Witness for claim C10: the three-choice question qW shuffled by two
concrete draw functions; the all-zero draws render the original indices as
the list 1, 2, 0 and the identity draws leave them as 0, 1, 2, and
confirming logical choice 1 from either layout yields the same state and
the same stored record. -/
theorem claim_C10_witness :
    (choiceButtons qW (fun _ => 0)).Perm (List.range qW.choices.length)
    ∧ confirmButtonAt (fun _ => 0) 0 11 sW = confirmButtonAt (fun x => x) 1 11 sW
    ∧ lookupAnswer (confirmButtonAt (fun _ => 0) 0 11 sW).answers qW.id
        = some (submittedRecord 1 11 qW) :=
  claim_C10 sW qW (fun _ => 0) (fun x => x) 0 1 1 11 (by decide) (by decide) (by decide)

end Quiz
